import Mathlib

/-!
Shallow embedding of the MARCUS autonomous research engine core
(`src/backtesting/vector_engine.py`, `src/backtesting/nqmain_analyzer.py`,
`src/backtesting/marcus_daemon.py`) together with proofs checking the
natural-language specification against the code.

Floating-point arithmetic of the source is modelled with exact rationals;
the claims under verification are about control flow and exact algebraic
form, not rounding.
-/

namespace Marcus

/-! ## Vector engine (`VectorEngine` in `vector_engine.py`)

`VectorEngine.run` computes, from a bar table and a signal series:
`pos = signals.shift(1).fillna(0)`, close-to-close percent returns,
a futures-aware per-bar cost, net returns and a compounded equity curve.
Bars are modelled as parallel lists of rationals indexed by bar number;
out-of-range reads default to 0 (the theorems carry length hypotheses).
-/

/-- Constructor arguments of `VectorEngine.__init__`. -/
structure EngineParams where
  initialCapital : ℚ
  commission : ℚ
  slippage : ℚ
  volatilityFactor : ℚ
  pointValue : ℚ
  deriving DecidableEq

/-- Position series `pos = signals.shift(1).fillna(0)`: the position held on bar `i` is the
signal emitted on bar `i-1`; 0 on the first bar. -/
def posAt (signals : List ℚ) : ℕ → ℚ
  | 0 => 0
  | i + 1 => signals.getD i 0

/-- Return series `returns = df['Close'].pct_change().fillna(0)`: close-to-close percent
change, 0 on the first bar. -/
def retAt (closes : List ℚ) : ℕ → ℚ
  | 0 => 0
  | i + 1 => closes.getD (i + 1) 0 / closes.getD i 0 - 1

/-- Safe price `safe_prices = prices.replace(0, np.nan).ffill().fillna(1.0)`: the last
nonzero close at or before bar `i`, and 1.0 when no nonzero close has been
seen yet. -/
def safeAt (closes : List ℚ) : ℕ → ℚ
  | 0 => if closes.getD 0 0 = 0 then 1 else closes.getD 0 0
  | i + 1 => if closes.getD (i + 1) 0 = 0 then safeAt closes i else closes.getD (i + 1) 0

/-- Cost fraction `cost_pct = (commission + slippage + volatility_factor*|high-low|) / (safe_price * point_value)`:
per-unit transaction cost as a fraction of notional. -/
def costPctAt (p : EngineParams) (closes highs lows : List ℚ) (i : ℕ) : ℚ :=
  (p.commission + p.slippage + p.volatilityFactor * |highs.getD i 0 - lows.getD i 0|) /
    (safeAt closes i * p.pointValue)

/-- Turnover `turnover = pos.diff().abs().fillna(0)`: absolute change of position,
0 on the first bar. -/
def turnoverAt (signals : List ℚ) : ℕ → ℚ
  | 0 => 0
  | i + 1 => |posAt signals (i + 1) - posAt signals i|

/-- Transaction costs `transaction_costs = turnover * cost_pct`. -/
def costAt (p : EngineParams) (closes highs lows signals : List ℚ) (i : ℕ) : ℚ :=
  turnoverAt signals i * costPctAt p closes highs lows i

/-- Net returns `net_returns = pos * returns - transaction_costs`. -/
def netAt (p : EngineParams) (closes highs lows signals : List ℚ) (i : ℕ) : ℚ :=
  posAt signals i * retAt closes i - costAt p closes highs lows signals i

/-- Equity `equity_curve = initial_capital * (1 + net_returns).cumprod()`, written
as the running product the cumulative product denotes. -/
def equityAt (p : EngineParams) (closes highs lows signals : List ℚ) : ℕ → ℚ
  | 0 => p.initialCapital * (1 + netAt p closes highs lows signals 0)
  | i + 1 => equityAt p closes highs lows signals i * (1 + netAt p closes highs lows signals (i + 1))

/-- The per-bar cost exactly as the specification words it:
`cost[i] = turnover[i] * (commission + slippage + volatility_factor*(high[i]-low[i])) / (close[i] * point_value)`. -/
def specCostAt (p : EngineParams) (closes highs lows signals : List ℚ) (i : ℕ) : ℚ :=
  turnoverAt signals i *
    ((p.commission + p.slippage + p.volatilityFactor * (highs.getD i 0 - lows.getD i 0)) /
      (closes.getD i 0 * p.pointValue))

/-- The `ARCHETYPE_REGIME` lookup table. -/
def archetypeRegimeTable : List (String × String) :=
  [("orb_breakout", "breakout"), ("orb_vwap", "breakout"), ("orb_momentum", "momentum"),
   ("ma_crossover", "trend_following"), ("eod_momentum", "momentum"),
   ("lunch_hour_breakout", "breakout"), ("gap_fill_fade", "mean_reversion"),
   ("es_gap_combo", "mixed"), ("power_hour_momentum", "momentum"),
   ("first_hour_fade", "mean_reversion"), ("lunch_range_fade", "mean_reversion"),
   ("overnight", "mean_reversion")]

/-- Lookup `ARCHETYPE_REGIME.get(archetype, '')`. -/
def regimeOf (archetype : String) : String :=
  ((archetypeRegimeTable.find? (fun q => q.1 == archetype)).map Prod.snd).getD ""

/-- The `ARCHETYPE_TIME_WINDOWS` lookup table, in minutes of day. -/
def archetypeWindowTable : List (String × (ℕ × ℕ)) :=
  [("orb_breakout", (585, 945)), ("orb_vwap", (585, 945)), ("orb_momentum", (585, 945)),
   ("ma_crossover", (570, 945)), ("eod_momentum", (810, 945)),
   ("lunch_hour_breakout", (660, 810)), ("gap_fill_fade", (570, 660)),
   ("es_gap_combo", (570, 660)), ("power_hour_momentum", (840, 930)),
   ("first_hour_fade", (615, 690)), ("lunch_range_fade", (690, 810)),
   ("overnight", (1080, 480))]

/-- Lookup `ARCHETYPE_TIME_WINDOWS.get(archetype, (time(9,30), time(15,45)))`. -/
def archetypeWindow (archetype : String) : ℕ × ℕ :=
  ((archetypeWindowTable.find? (fun q => q.1 == archetype)).map Prod.snd).getD (570, 945)

/-- Helper `window_to_minutes` in `compute_time_overlap`: minute-of-day set of a
window `[s, e)`, taking the union of the two halves when it wraps midnight. -/
def windowMinutes (s e : ℕ) : Finset ℕ :=
  if e < s then (Finset.range 1440).filter (fun m => s ≤ m ∨ m < e)
  else (Finset.range e).filter (fun m => s ≤ m)

/-- Minutes of the reference portfolio: `profile.get_all_active_windows()`
is RTH `(9:30, 15:45)` plus overnight `(18:05, 9:25)`. -/
def nqUnionMinutes : Finset ℕ :=
  windowMinutes 570 945 ∪ windowMinutes 1085 565

/-- Strategy window duration as computed in `compute_time_overlap`
(wrap-aware difference of the endpoints). -/
def stratDuration (s e : ℕ) : ℕ :=
  if e < s then (1440 - s) + e else e - s

/-- Overlap `compute_time_overlap(strategy_window, profile.get_all_active_windows())`:
`min(1, |strat ∩ reference| / duration)`, and 0 for an empty window. -/
def timeOverlap (s e : ℕ) : ℚ :=
  if stratDuration s e = 0 then 0
  else min 1 ((((windowMinutes s e) ∩ nqUnionMinutes).card : ℚ) / (stratDuration s e : ℚ))

/-- The `gap_windows` of `NQmainProfile`, in minutes of day. -/
def gapWindows : List (ℕ × ℕ) := [(945, 1085), (690, 810), (565, 570)]

/-- The gap-coverage test of `get_complementary_score`: a cross-midnight
window covers the post-close dead zone when it starts before 18:05;
otherwise the window is intersected against each gap window. -/
def gapCoverage (s e : ℕ) : Bool :=
  if e < s then decide (s < 1085)
  else gapWindows.any (fun g =>
    if g.2 < g.1 then decide (g.1 < e ∨ s < g.2)
    else decide (s < g.2 ∧ g.1 < e))

/-- The score assembly of `get_complementary_score` for a resolved window
`[s, e)`: time-independence points, regime-complement points, gap-coverage
points, the low-overlap bonus and the two specific-gap bonuses, capped with
`min(100, score)`. -/
def complementaryScore (archetype : String) (s e : ℕ) : ℚ :=
  let overlap := timeOverlap s e
  let regimeComplement := regimeOf archetype = "mean_reversion" ∨ regimeOf archetype = "choppy_range"
  let score :=
    (1 - overlap) * 25 +
    (if regimeComplement then 35 else 0) +
    (if gapCoverage s e then 20 else 0) +
    (if overlap < 1/2 then 10 else 0) +
    (if s ≤ 690 ∧ 810 ≤ e then 5 else 0) +
    (if 945 ≤ s ∧ e ≤ 1085 then 5 else 0)
  min 100 score

/-- The score formula exactly as the specification words it, clamped to
`[0, 100]`. -/
def specScoreFormula (regimeComplement gapCov lowOverlap covLunch covPost : Prop)
    [Decidable regimeComplement] [Decidable gapCov] [Decidable lowOverlap]
    [Decidable covLunch] [Decidable covPost] (overlap : ℚ) : ℚ :=
  max 0 (min 100 (25 * (1 - overlap) +
    (if regimeComplement then 35 else 0) +
    (if gapCov then 20 else 0) +
    (if lowOverlap then 10 else 0) +
    (if covLunch then 5 else 0) +
    (if covPost then 5 else 0)))

/-! ## Daemon state persistence (`MarcusDaemon` in `marcus_daemon.py`)

The persisted state file is a flat JSON object shared between the daemon
and the dashboard.  It is modelled as a map from field names to optional
values (`none` = field absent).  `_save_state` is read-modify-write:
read the existing file, overlay the in-memory state minus the
`paused`/`stopped` control flags, then overlay `force_flags` when given. -/

/-- A JSON scalar stored in the daemon state file. -/
inductive JVal where
  | bool (b : Bool)
  | str (s : String)
  | num (q : ℚ)
  deriving DecidableEq

/-- Function `_save_state(force_flags)`: the file content after the write, as a
function of the prior on-disk content `existing`, the in-memory `self._state`
`mem`, and the optional forced flags.  `dict.update` semantics: a key takes
the forced value if forced, else the in-memory value unless the key is
`paused`/`stopped` (those are filtered out of `daemon_metrics`), else the
prior on-disk value. -/
def saveState (existing mem forceFlags : String → Option JVal) : String → Option JVal :=
  fun k =>
    match forceFlags k with
    | some v => some v
    | none =>
        if k = "paused" ∨ k = "stopped" then existing k
        else
          match mem k with
          | some v => some v
          | none => existing k

/-- An empty overlay: `_save_state()` called with `force_flags=None`. -/
def noForceFlags : String → Option JVal := fun _ => none

/-- The forced flags of `MarcusDaemon.start`:
`_save_state(force_flags={'paused': False, 'stopped': False})`. -/
def startForceFlags : String → Option JVal :=
  fun k => if k = "paused" ∨ k = "stopped" then some (JVal.bool false) else none

/-! ## Overnight fade kernel (`_numba_overnight_logic` in `vector_engine.py`)

The kernel is a chronological loop from bar 1 over parallel arrays; it is
embedded as a step function on an explicit state record, iterated over a
list of bars.  The emitted `signals[i]` always equals the `in_pos` state
variable after processing bar `i` (every early-`continue` path stores the
current `in_pos`, which the flattening paths have just set to 0), so the
step returns the state plus a flag marking whether an entry branch ran. -/

/-- One input bar of the overnight kernel. -/
structure ONBar where
  day : ℤ
  t : ℤ
  close : ℚ
  high : ℚ
  low : ℚ
  ema : ℚ
  atr : ℚ
  deriving DecidableEq, Inhabited

/-- Parameters of `_numba_overnight_logic` (times in minutes of day). -/
structure ONParams where
  startMin : ℤ
  endMin : ℤ
  rangeEndMin : ℤ
  slMult : ℚ
  tpMult : ℚ
  deriving DecidableEq

/-- Loop state of `_numba_overnight_logic`. -/
structure ONState where
  rangeHigh : ℚ
  rangeLow : ℚ
  traded : Bool
  inPos : ℤ
  entryPrice : ℚ
  slPrice : ℚ
  tpPrice : ℚ
  inSession : Bool
  rangeFormed : Bool
  brokeHigh : Bool
  brokeLow : Bool
  deriving DecidableEq

/-- The session reset block (used both at a day boundary with
`t >= start_min` and at session-start detection):
`range_high = -1; range_low = 1e9; traded_session = False; in_session = True;
range_formed = False; broke_high = False; broke_low = False`. -/
def onReset (s : ONState) : ONState :=
  { s with
    rangeHigh := -1
    rangeLow := 10^9
    traded := false
    inSession := true
    rangeFormed := false
    brokeHigh := false
    brokeLow := false }

/-- Initial loop state. -/
def onInit : ONState :=
  { rangeHigh := -1, rangeLow := 10^9, traded := false, inPos := 0,
    entryPrice := 0, slPrice := 0, tpPrice := 0, inSession := false,
    rangeFormed := false, brokeHigh := false, brokeLow := false }

/-- Intra-bar SL/TP exit checks of the overnight trading window
(stop checked before target, long and short mirrored). -/
def onExits (b : ONBar) (s : ONState) : ONState :=
  if s.inPos = 1 then
    (if b.low ≤ s.slPrice then { s with inPos := 0 }
     else if s.tpPrice ≤ b.high then { s with inPos := 0 } else s)
  else if s.inPos = -1 then
    (if s.slPrice ≤ b.high then { s with inPos := 0 }
     else if b.low ≤ s.tpPrice then { s with inPos := 0 } else s)
  else s

/-- The short-fade entry assignments. -/
def onEnterShort (p : ONParams) (b : ONBar) (s : ONState) : ONState :=
  { s with
    inPos := -1
    entryPrice := b.close
    slPrice := b.close + b.atr * p.slMult
    tpPrice := b.close - b.atr * p.tpMult
    traded := true
    brokeHigh := false
    brokeLow := false }

/-- The long-fade entry assignments. -/
def onEnterLong (p : ONParams) (b : ONBar) (s : ONState) : ONState :=
  { s with
    inPos := 1
    entryPrice := b.close
    slPrice := b.close - b.atr * p.slMult
    tpPrice := b.close + b.atr * p.tpMult
    traded := true
    brokeHigh := false
    brokeLow := false }

/-- Entry logic of the overnight trading window: at most one fade per
session, only with a proper range and positive ATR; breakout state is
tracked, then a failed breakout is faded against the EMA filter.  Returns
the new state and whether an entry fired. -/
def onEntries (p : ONParams) (b : ONBar) (s : ONState) : ONState × Bool :=
  if s.inPos = 0 ∧ s.traded = false ∧ s.rangeLow < s.rangeHigh then
    if b.atr ≤ 0 then (s, false)
    else
      let s5 :=
        { s with
          brokeHigh := s.brokeHigh || decide (s.rangeHigh < b.high)
          brokeLow := s.brokeLow || decide (b.low < s.rangeLow) }
      if s5.brokeHigh ∧ b.close < s5.rangeHigh ∧ b.close < b.ema then
        (onEnterShort p b s5, true)
      else if s5.brokeLow ∧ s5.rangeLow < b.close ∧ b.ema < b.close then
        (onEnterLong p b s5, true)
      else (s5, false)
  else (s, false)

/-- Predicate `end_min - 5 <= t` (with the evening guard when the session wraps):
the hard exit within 5 minutes of `session_end`. -/
def onNearExit (p : ONParams) (crosses : Bool) (t : ℤ) : Bool :=
  if crosses then decide (t < p.startMin) && decide (p.endMin - 5 ≤ t)
  else decide (p.endMin - 5 ≤ t)

/-- The overnight trading window: hard exit within 5 minutes of
`session_end`, otherwise SL/TP exits followed by the entry check. -/
def onTrading (p : ONParams) (crosses : Bool) (b : ONBar) (s3 : ONState) : ONState × Bool :=
  if onNearExit p crosses b.t then ({ s3 with inPos := 0 }, false)
  else onEntries p b (onExits b s3)

/-- Flag `crosses_midnight = start_min > end_min`. -/
def onCrosses (p : ONParams) : Bool := decide (p.endMin < p.startMin)

/-- Predicate `bar_in_session`: wrap-aware membership of the bar in the overnight
session. -/
def onBarInSession (p : ONParams) (crosses : Bool) (t : ℤ) : Bool :=
  if crosses then decide (p.startMin ≤ t) || decide (t < p.endMin)
  else decide (p.startMin ≤ t) && decide (t < p.endMin)

/-- Predicate `in_range_window`: wrap-aware membership of the bar in the range
formation window. -/
def onInRangeWindow (p : ONParams) (crosses : Bool) (t : ℤ) : Bool :=
  if crosses then
    (if p.startMin < p.rangeEndMin then decide (p.startMin ≤ t) && decide (t < p.rangeEndMin)
     else decide (p.startMin ≤ t) || decide (t < p.rangeEndMin))
  else decide (p.startMin ≤ t) && decide (t < p.rangeEndMin)

/-- The range formation update: seed the range on its first bar, then widen
it with the bar's high/low. -/
def onRangeUpdate (b : ONBar) (s : ONState) : ONState :=
  if s.rangeHigh = -1 then { s with rangeHigh := b.high, rangeLow := b.low }
  else { s with rangeHigh := max s.rangeHigh b.high, rangeLow := min s.rangeLow b.low }

/-- One iteration of `_numba_overnight_logic` for bar `b`, given the previous
bar's day ordinal: day-boundary handling (force-exit, evening reset when
`t >= start_min`), session-start detection, out-of-session flattening,
range formation, then the trading window.  Returns the new state and
whether an entry fired. -/
def onStep (p : ONParams) (prevDay : ℤ) (b : ONBar) (s0 : ONState) : ONState × Bool :=
  let crosses := onCrosses p
  let s1 := if b.day ≠ prevDay then
      (if p.startMin ≤ b.t then onReset { s0 with inPos := 0 } else { s0 with inPos := 0 })
    else s0
  let s2 := if p.startMin ≤ b.t ∧ b.t < p.startMin + 5 ∧ s1.inSession = false
    then onReset s1 else s1
  if onBarInSession p crosses b.t = false then
    ({ s2 with inPos := 0, inSession := false }, false)
  else if onInRangeWindow p crosses b.t && !s2.rangeFormed then
    (onRangeUpdate b s2, false)
  else
    let s3 := if !s2.rangeFormed && !(onInRangeWindow p crosses b.t)
      then { s2 with rangeFormed := true } else s2
    if s3.rangeFormed && onBarInSession p crosses b.t then onTrading p crosses b s3
    else (s3, false)

/-- State after processing bars `1..i` (the loop starts at index 1), with
the entry flag of the last processed bar. -/
def onStateAt (p : ONParams) (bars : List ONBar) : ℕ → ONState × Bool
  | 0 => (onInit, false)
  | i + 1 => onStep p (bars.getD i default).day (bars.getD (i + 1) default) (onStateAt p bars i).1

/-- Signal `signals[i]` as emitted by the kernel: the `in_pos` state after bar `i`
(`signals[0] = 0` because the loop starts at 1). -/
def onSignal (p : ONParams) (bars : List ONBar) (i : ℕ) : ℤ :=
  ((onStateAt p bars i).1).inPos

/-- Parameters of the C4 scenario: session 18:00-08:00, one-hour range
(ends 19:00), `sl_atr_mult = 2`, `tp_atr_mult = 3`. -/
def onCexParams : ONParams := ⟨1080, 480, 1140, 2, 3⟩

/-- Bars of the C4 scenario: an evening session on day 1 forms a range
(18:00 bar), a failed breakout is faded short at 19:00
(entry 104, SL 106, TP 101), the position is still open at 23:55, and the
next bar is 00:00 of day 2 with prices strictly inside SL/TP. -/
def onCexBars : List ONBar :=
  [⟨1, 1075, 100, 100, 100, 200, 1⟩,
   ⟨1, 1080, 100, 105, 95, 200, 1⟩,
   ⟨1, 1140, 104, 106, 103, 200, 1⟩,
   ⟨1, 1435, 104, 105, 103, 200, 1⟩,
   ⟨2, 0, 104, 105, 103, 200, 1⟩]

/-! ## ORB kernel (`_numba_orb_logic` in `vector_engine.py`)

Same embedding style as the overnight kernel: a step function over an
explicit state, iterated along the bar list; `signals[i]` equals the
`in_pos` state after bar `i`.  The step also reports which exit branch ran
(stop before target is the tie-break under scrutiny) and whether an entry
fired. -/

/-- One input bar of the ORB kernel (including the per-bar filter inputs). -/
structure OrbBar where
  day : ℤ
  t : ℤ
  close : ℚ
  high : ℚ
  low : ℚ
  ema : ℚ
  atr : ℚ
  dailyMa : ℚ
  rvol : ℚ
  hurst : ℚ
  adx : ℚ
  deriving DecidableEq, Inhabited

/-- Parameters of `_numba_orb_logic` (times in minutes of day). -/
structure OrbParams where
  startMin : ℤ
  endMin : ℤ
  exitMin : ℤ
  atrMaxMult : ℚ
  slMult : ℚ
  tpMult : ℚ
  useHtf : Bool
  useRvol : Bool
  rvolThresh : ℚ
  useHurst : Bool
  hurstThresh : ℚ
  useAdx : Bool
  adxThresh : ℚ
  useTs : Bool
  tsMult : ℚ
  deriving DecidableEq

/-- Loop state of `_numba_orb_logic`. -/
structure OrbState where
  orbHigh : ℚ
  orbLow : ℚ
  traded : Bool
  inPos : ℤ
  entryPrice : ℚ
  slPrice : ℚ
  tpPrice : ℚ
  deriving DecidableEq

/-- Which intra-bar exit branch ran on a bar. -/
inductive OrbExit where
  | none
  | stop
  | target
  deriving DecidableEq

/-- Initial loop state. -/
def orbInit : OrbState :=
  { orbHigh := -1, orbLow := 10^9, traded := false, inPos := 0,
    entryPrice := 0, slPrice := 0, tpPrice := 0 }

/-- Day-boundary reset:
`orb_high = -1; orb_low = 1e9; traded_today = False; in_pos = 0`. -/
def orbDayReset (s : OrbState) : OrbState :=
  { s with orbHigh := -1, orbLow := 10^9, traded := false, inPos := 0 }

/-- Range-formation update: seed on the first ORB bar, then widen. -/
def orbRangeUpdate (b : OrbBar) (s : OrbState) : OrbState :=
  if s.orbHigh = -1 then { s with orbHigh := b.high, orbLow := b.low }
  else { s with orbHigh := max s.orbHigh b.high, orbLow := min s.orbLow b.low }

/-- Intra-bar exit checks: the trailing stop (when enabled) first ratchets
the stop using the current bar's extreme, then the stop is checked before
the fixed target, and the fixed target is disabled when the trailing stop
is enabled.  Long and short mirrored. -/
def orbExits (p : OrbParams) (b : OrbBar) (s : OrbState) : OrbState × OrbExit :=
  if s.inPos = 1 then
    let s2 := if p.useTs then { s with slPrice := max s.slPrice (b.high - b.atr * p.tsMult) }
      else s
    if b.low ≤ s2.slPrice then ({ s2 with inPos := 0 }, OrbExit.stop)
    else if p.useTs = false ∧ s2.tpPrice ≤ b.high then ({ s2 with inPos := 0 }, OrbExit.target)
    else (s2, OrbExit.none)
  else if s.inPos = -1 then
    let s2 := if p.useTs then { s with slPrice := min s.slPrice (b.low + b.atr * p.tsMult) }
      else s
    if s2.slPrice ≤ b.high then ({ s2 with inPos := 0 }, OrbExit.stop)
    else if p.useTs = false ∧ b.low ≤ s2.tpPrice then ({ s2 with inPos := 0 }, OrbExit.target)
    else (s2, OrbExit.none)
  else (s, OrbExit.none)

/-- Optional-filter validation for a long entry (`valid` in the source). -/
def orbLongFiltersOk (p : OrbParams) (b : OrbBar) : Bool :=
  (!p.useHtf || decide (b.dailyMa < b.close)) &&
  (!p.useRvol || decide (p.rvolThresh < b.rvol)) &&
  (!p.useHurst || decide (p.hurstThresh < b.hurst)) &&
  (!p.useAdx || decide (p.adxThresh < b.adx))

/-- Optional-filter validation for a short entry. -/
def orbShortFiltersOk (p : OrbParams) (b : OrbBar) : Bool :=
  (!p.useHtf || decide (b.close < b.dailyMa)) &&
  (!p.useRvol || decide (p.rvolThresh < b.rvol)) &&
  (!p.useHurst || decide (p.hurstThresh < b.hurst)) &&
  (!p.useAdx || decide (p.adxThresh < b.adx))

/-- Long-entry assignments. -/
def orbEnterLong (p : OrbParams) (b : OrbBar) (s : OrbState) : OrbState :=
  { s with
    inPos := 1
    entryPrice := b.close
    slPrice := b.close - b.atr * p.slMult
    tpPrice := b.close + b.atr * p.tpMult
    traded := true }

/-- Short-entry assignments. -/
def orbEnterShort (p : OrbParams) (b : OrbBar) (s : OrbState) : OrbState :=
  { s with
    inPos := -1
    entryPrice := b.close
    slPrice := b.close + b.atr * p.slMult
    tpPrice := b.close - b.atr * p.tpMult
    traded := true }

/-- Entry logic of the ORB trading window: requires a flat position, no
trade yet today, a formed range of size in `(0, atr_max_mult*ATR]` with
positive ATR, a close beyond the range and the EMA, and the enabled
optional filters.  Returns the new state and whether an entry fired. -/
def orbEntries (p : OrbParams) (b : OrbBar) (s : OrbState) : OrbState × Bool :=
  if s.inPos = 0 ∧ s.traded = false ∧ s.orbHigh ≠ -1 then
    if 0 < s.orbHigh - s.orbLow ∧ 0 < b.atr ∧ s.orbHigh - s.orbLow ≤ b.atr * p.atrMaxMult then
      if s.orbHigh < b.close ∧ b.ema < b.close then
        (if orbLongFiltersOk p b then (orbEnterLong p b s, true) else (s, false))
      else if b.close < s.orbLow ∧ b.close < b.ema then
        (if orbShortFiltersOk p b then (orbEnterShort p b s, true) else (s, false))
      else (s, false)
    else (s, false)
  else (s, false)

/-- One iteration of `_numba_orb_logic` for bar `b`, given the previous
bar's day ordinal: day-boundary reset, then exactly one of the ORB range
window, the trading window (exits then entries) and the session-end
flatten.  Returns the new state, the exit branch and the entry flag. -/
def orbStep (p : OrbParams) (prevDay : ℤ) (b : OrbBar) (s0 : OrbState) :
    OrbState × OrbExit × Bool :=
  let s1 := if b.day ≠ prevDay then orbDayReset s0 else s0
  if p.startMin ≤ b.t ∧ b.t < p.endMin then
    (orbRangeUpdate b s1, OrbExit.none, false)
  else if p.endMin ≤ b.t ∧ b.t < p.exitMin then
    let ex := orbExits p b s1
    let en := orbEntries p b ex.1
    (en.1, ex.2, en.2)
  else if p.exitMin ≤ b.t then
    ({ s1 with inPos := 0 }, OrbExit.none, false)
  else (s1, OrbExit.none, false)

/-- State, exit branch and entry flag after processing bars `1..i`. -/
def orbStateAt (p : OrbParams) (bars : List OrbBar) : ℕ → OrbState × OrbExit × Bool
  | 0 => (orbInit, OrbExit.none, false)
  | i + 1 =>
      orbStep p (bars.getD i default).day (bars.getD (i + 1) default) (orbStateAt p bars i).1

/-- Signal `signals[i]` as emitted by the ORB kernel. -/
def orbSignal (p : OrbParams) (bars : List OrbBar) (i : ℕ) : ℤ :=
  ((orbStateAt p bars i).1).inPos

/-- ORB parameters of the C7 scenario: range 09:30-09:45, trade until
15:45, `atr_max_mult = 2.5`, `sl = 2`, `tp = 4`, all optional filters off. -/
def orbWParams : OrbParams :=
  ⟨570, 585, 945, 5/2, 2, 4, false, false, 0, false, 0, false, 0, false, 3⟩

/-- Bars of the C7 scenario, all on day 10: the range forms at 09:30
(95-105), a long entry fires at 09:50 (close 106, SL 96, TP 126), the stop
is hit at 09:55, and the next bar stays flat. -/
def orbWBars : List OrbBar :=
  [⟨10, 560, 100, 100, 100, 50, 5, 0, 0, 0, 0⟩,
   ⟨10, 570, 100, 105, 95, 50, 5, 0, 0, 0, 0⟩,
   ⟨10, 590, 106, 106, 105, 50, 5, 0, 0, 0, 0⟩,
   ⟨10, 595, 95, 96, 90, 50, 5, 0, 0, 0, 0⟩,
   ⟨10, 600, 100, 101, 99, 50, 5, 0, 0, 0, 0⟩]

/-- C5 scenario: fixed-target ORB parameters and a long position whose SL
(99) and TP (101) both fall inside the bar range [98, 102]. -/
def orbTieParams : OrbParams :=
  ⟨570, 585, 945, 5/2, 2, 4, false, false, 0, false, 0, false, 0, false, 3⟩

/-- The bracketing bar of the C5 scenario. -/
def orbTieBar : OrbBar := ⟨5, 600, 100, 102, 98, 50, 1, 0, 0, 0, 0⟩

/-- The held long of the C5 scenario. -/
def orbTieState : OrbState := ⟨105, 95, true, 1, 100, 99, 101⟩

/-- C8 scenario: trailing-stop ORB parameters (`ts_atr_mult = 1`). -/
def orbTsParams : OrbParams :=
  ⟨570, 585, 945, 5/2, 2, 4, false, false, 0, false, 0, false, 0, true, 1⟩

/-- A trading-window bar of the C8 scenario (high 100, ATR 2). -/
def orbTsBar : OrbBar := ⟨5, 600, 100, 100, 97, 50, 2, 0, 0, 0, 0⟩

/-- The held long of the C8 scenario (stop currently 95). -/
def orbTsState : OrbState := ⟨105, 95, true, 1, 100, 95, 108⟩

/-- On any prefix of everywhere-positive closes, the engine's forward-filled
safe price is the close itself. -/
theorem safeAt_eq_close (closes : List ℚ) (i : ℕ) (hi : i < closes.length)
    (hc : ∀ j, j < closes.length → 0 < closes.getD j 0) :
    safeAt closes i = closes.getD i 0 := by
  cases i with
  | zero =>
      have h0 := (hc 0 hi).ne'
      unfold safeAt
      rw [if_neg h0]
  | succ k =>
      have h1 := (hc (k + 1) hi).ne'
      unfold safeAt
      rw [if_neg h1]

/-- C1: on every bar table with positive closes and `low ≤ high`, the
engine's transaction cost equals
`turnover[i] * (commission + slippage + volatility_factor*(high[i]-low[i])) / (close[i] * point_value)`
with `turnover[i] = |position[i] - position[i-1]|`, `position[i] = signals[i-1]`
(0 on the first bar), and the net return is the gross position return minus
this cost. -/
theorem cost_model_matches_spec (p : EngineParams) (closes highs lows signals : List ℚ)
    (i : ℕ) (hi : i < closes.length)
    (hc : ∀ j, j < closes.length → 0 < closes.getD j 0)
    (hb : lows.getD i 0 ≤ highs.getD i 0) :
    costAt p closes highs lows signals i = specCostAt p closes highs lows signals i ∧
    netAt p closes highs lows signals i =
      posAt signals i * retAt closes i - costAt p closes highs lows signals i := by
  constructor
  · unfold costAt specCostAt costPctAt
    rw [safeAt_eq_close closes i hi hc, abs_of_nonneg (sub_nonneg.mpr hb)]
  · rfl

/-- Witness for C1 at a concrete two-bar table. -/
theorem cost_model_matches_spec_witness :
    (1 < [(100 : ℚ), 110].length ∧
      (∀ j, j < [(100 : ℚ), 110].length → 0 < [(100 : ℚ), 110].getD j 0) ∧
      [(99 : ℚ), 109].getD 1 0 ≤ [(101 : ℚ), 111].getD 1 0) ∧
    (costAt ⟨100000, 2, 1, 1/100, 20⟩ [100, 110] [101, 111] [99, 109] [1, 1] 1 =
        specCostAt ⟨100000, 2, 1, 1/100, 20⟩ [100, 110] [101, 111] [99, 109] [1, 1] 1 ∧
      netAt ⟨100000, 2, 1, 1/100, 20⟩ [100, 110] [101, 111] [99, 109] [1, 1] 1 =
        posAt [1, 1] 1 * retAt [100, 110] 1 -
          costAt ⟨100000, 2, 1, 1/100, 20⟩ [100, 110] [101, 111] [99, 109] [1, 1] 1) :=
  ⟨⟨by decide, by decide, by decide⟩,
    cost_model_matches_spec ⟨100000, 2, 1, 1/100, 20⟩ [100, 110] [101, 111] [99, 109] [1, 1] 1
      (by decide) (by decide) (by decide)⟩

/-- C2 counterexample: the equity curve can go strictly negative.  With zero
costs, a short position held over a bar whose close triples (100 → 300) gives
a net return of −2, so `equity = 100000 * (1 + (−2)) = −100000 < 0`: the
claimed invariant `equity[i] ≥ 0` fails on the code. -/
theorem equity_can_go_negative_cex :
    equityAt ⟨100000, 0, 0, 0, 20⟩ [100, 100, 300] [100, 100, 300] [100, 100, 300]
        [-1, -1, -1] 2 < 0 := by
  norm_num [equityAt, netAt, costAt, turnoverAt, posAt, retAt, costPctAt, safeAt]

/-- C2 amended: `equity[0] = initial_capital`, and bankruptcy at exactly zero
is terminal (once some bar's equity is 0, every later bar's equity is 0);
the non-negativity part of the claim does not hold. -/
theorem equity_initial_and_terminal_zero (p : EngineParams)
    (closes highs lows signals : List ℚ) :
    equityAt p closes highs lows signals 0 = p.initialCapital ∧
    ∀ i j, i ≤ j → equityAt p closes highs lows signals i = 0 →
      equityAt p closes highs lows signals j = 0 := by
  constructor
  · unfold equityAt netAt costAt turnoverAt posAt retAt
    ring
  · intro i j hij hzero
    induction j with
    | zero =>
        have : i = 0 := Nat.le_zero.mp hij
        rwa [this] at hzero
    | succ k ih =>
        rcases Nat.le_succ_iff_eq_or_le.mp hij with h | h
        · rw [← Nat.succ_eq_add_one, ← h]
          exact hzero
        · rw [equityAt, ih h, zero_mul]

/-- Witness for C2 amended: with zero costs, closes `[100, 200, 100]` and a
short signal on the first bar, equity hits exactly 0 on bar 1 and stays 0. -/
theorem equity_initial_and_terminal_zero_witness :
    equityAt ⟨100000, 0, 0, 0, 20⟩ [100, 200, 100] [100, 200, 100] [100, 200, 100]
        [-1, 0, 0] 0 = 100000 ∧
    (1 ≤ 2 ∧
      equityAt ⟨100000, 0, 0, 0, 20⟩ [100, 200, 100] [100, 200, 100] [100, 200, 100]
          [-1, 0, 0] 1 = 0) ∧
    equityAt ⟨100000, 0, 0, 0, 20⟩ [100, 200, 100] [100, 200, 100] [100, 200, 100]
        [-1, 0, 0] 2 = 0 := by
  have h1 : equityAt ⟨100000, 0, 0, 0, 20⟩ [100, 200, 100] [100, 200, 100] [100, 200, 100]
      [-1, 0, 0] 1 = 0 := by
    norm_num [equityAt, netAt, costAt, turnoverAt, posAt, retAt, costPctAt, safeAt]
  have h0 := (equity_initial_and_terminal_zero ⟨100000, 0, 0, 0, 20⟩ [100, 200, 100]
      [100, 200, 100] [100, 200, 100] [-1, 0, 0]).1
  exact ⟨h0, ⟨by norm_num, h1⟩,
    (equity_initial_and_terminal_zero ⟨100000, 0, 0, 0, 20⟩ [100, 200, 100] [100, 200, 100]
      [100, 200, 100] [-1, 0, 0]).2 1 2 (by norm_num) h1⟩

/-! ## Complementarity scorer (`nqmain_analyzer.py`)

`get_complementary_score(archetype, params)` resolves the candidate's time
window (a pair of times of day), computes the fractional minute overlap with
the reference portfolio's active windows (RTH 09:30-15:45 plus overnight
18:05-09:25), checks the regime and gap tables, and combines everything into
a clamped score.  Times of day are modelled as minute-of-day numbers; the
resolved window is passed explicitly (resolution from `params` is string
parsing, the scorer itself is what the claims are about). -/

/-- The overlap fraction always lies in `[0, 1]`. -/
theorem timeOverlap_mem_unit (s e : ℕ) : 0 ≤ timeOverlap s e ∧ timeOverlap s e ≤ 1 := by
  unfold timeOverlap
  split
  · norm_num
  · constructor
    · exact le_min (by norm_num) (div_nonneg (by positivity) (by positivity))
    · exact min_le_left _ _

/-- C3: for every archetype and resolved window, the scorer returns exactly
`25*(1-time_overlap) + 35*[regime_complement] + 20*[gap_coverage] +
10*[time_overlap < 0.5] + 5*[covers_lunch] + 5*[covers_post_close]` clamped
to `[0, 100]` (the code's `min(100, score)` coincides with the two-sided
clamp because the score is never negative), and the result lies in `[0, 100]`. -/
theorem complementary_score_formula_and_bounds (archetype : String) (s e : ℕ) :
    complementaryScore archetype s e =
      specScoreFormula
        (regimeOf archetype = "mean_reversion" ∨ regimeOf archetype = "choppy_range")
        (gapCoverage s e = true) (timeOverlap s e < 1/2)
        (s ≤ 690 ∧ 810 ≤ e) (945 ≤ s ∧ e ≤ 1085) (timeOverlap s e) ∧
    0 ≤ complementaryScore archetype s e ∧ complementaryScore archetype s e ≤ 100 := by
  obtain ⟨h0, h1⟩ := timeOverlap_mem_unit s e
  unfold complementaryScore specScoreFormula
  have hsum : 0 ≤ (1 - timeOverlap s e) * 25 +
      (if regimeOf archetype = "mean_reversion" ∨ regimeOf archetype = "choppy_range"
        then (35 : ℚ) else 0) +
      (if gapCoverage s e = true then (20 : ℚ) else 0) +
      (if timeOverlap s e < 1/2 then (10 : ℚ) else 0) +
      (if s ≤ 690 ∧ 810 ≤ e then (5 : ℚ) else 0) +
      (if 945 ≤ s ∧ e ≤ 1085 then (5 : ℚ) else 0) := by
    have hfirst : 0 ≤ (1 - timeOverlap s e) * 25 :=
      mul_nonneg (by linarith) (by norm_num)
    repeat apply add_nonneg
    all_goals first
      | exact hfirst
      | (split <;> norm_num)
  refine ⟨?_, ?_, ?_⟩
  · rw [max_eq_right (le_min (by norm_num) (by linarith [hsum])), mul_comm]
  · exact le_min (by norm_num) hsum
  · exact min_le_left _ _

/-- Filtering `range n` by `s ≤ m` gives the interval `[s, n)`. -/
theorem filter_le_range_eq_Ico (s n : ℕ) :
    (Finset.range n).filter (fun m => s ≤ m) = Finset.Ico s n := by
  ext m
  simp [Finset.mem_filter, Finset.mem_range, Finset.mem_Ico, and_comm]

/-- The minute set of a window has exactly `stratDuration` elements (windows
built from times of day satisfy `s, e ≤ 1440`). -/
theorem windowMinutes_card (s e : ℕ) (hs : s ≤ 1440) (he : e ≤ 1440) :
    (windowMinutes s e).card = stratDuration s e := by
  unfold windowMinutes stratDuration
  split
  · next hlt =>
      have hcopy : (Finset.range 1440).filter (fun m => s ≤ m ∨ m < e) =
          Finset.Ico s 1440 ∪ Finset.range e := by
        ext m
        simp only [Finset.mem_filter, Finset.mem_range, Finset.mem_union, Finset.mem_Ico]
        omega
      rw [hcopy, Finset.card_union_of_disjoint, Nat.card_Ico, Finset.card_range]
      rw [Finset.disjoint_left]
      intro m hm hm2
      rw [Finset.mem_Ico] at hm
      rw [Finset.mem_range] at hm2
      omega
  · rw [filter_le_range_eq_Ico, Nat.card_Ico]

/-- C6 amended: any candidate window whose minute set is contained in the
reference portfolio's union of active minutes (the literal "exactly equal"
reading is unsatisfiable: the union consists of three separated arcs while a
candidate window is one wrap-around interval) has `time_overlap = 1.0`, and
its complementary score is at most 60 — not 35, because the lunch-hour gap
window lies inside the active RTH window, so the gap-coverage and lunch
bonuses can still fire. -/
theorem union_contained_window_score (archetype : String) (s e : ℕ)
    (hs : s < 1440) (he : e < 1440) (hdur : stratDuration s e ≠ 0)
    (hsub : windowMinutes s e ⊆ nqUnionMinutes) :
    timeOverlap s e = 1 ∧ complementaryScore archetype s e ≤ 60 := by
  have hcard : ((windowMinutes s e) ∩ nqUnionMinutes).card = stratDuration s e := by
    rw [Finset.inter_eq_left.mpr hsub, windowMinutes_card s e hs.le he.le]
  have hq : (stratDuration s e : ℚ) ≠ 0 := Nat.cast_ne_zero.mpr hdur
  have hov : timeOverlap s e = 1 := by
    unfold timeOverlap
    rw [if_neg hdur, hcard, div_self hq, min_self]
  refine ⟨hov, ?_⟩
  unfold complementaryScore
  rw [hov]
  refine le_trans (min_le_right _ _) ?_
  have hhalf : ¬ ((1 : ℚ) < 1/2) := by norm_num
  rw [if_neg hhalf]
  by_cases hlu : s ≤ 690 ∧ 810 ≤ e
  · have hpo : ¬ (945 ≤ s ∧ e ≤ 1085) := by omega
    rw [if_pos hlu, if_neg hpo]
    split_ifs <;> norm_num
  · rw [if_neg hlu]
    split_ifs <;> norm_num

/-- A non-wrapping window is just the integer interval of its endpoints. -/
theorem windowMinutes_eq_Ico (s e : ℕ) (h : ¬ e < s) :
    windowMinutes s e = Finset.Ico s e := by
  unfold windowMinutes
  rw [if_neg h, filter_le_range_eq_Ico]

/-- C6 counterexample: the `lunch_range_fade` archetype with its default
window 11:30-13:30 lies entirely inside the reference portfolio's active
minutes, so `time_overlap = 1.0`, yet its score is 60 (> 35): regime
complement 35 + gap coverage 20 + lunch bonus 5. -/
theorem union_window_score_cex :
    archetypeWindow "lunch_range_fade" = (690, 810) ∧
    regimeOf "lunch_range_fade" = "mean_reversion" ∧
    windowMinutes 690 810 ⊆ nqUnionMinutes ∧
    timeOverlap 690 810 = 1 ∧
    complementaryScore "lunch_range_fade" 690 810 = 60 ∧
    ¬ complementaryScore "lunch_range_fade" 690 810 ≤ 35 := by
  have hsub : windowMinutes 690 810 ⊆ nqUnionMinutes := by
    intro m hm
    rw [windowMinutes_eq_Ico 690 810 (by norm_num), Finset.mem_Ico] at hm
    unfold nqUnionMinutes
    rw [Finset.mem_union]
    left
    rw [windowMinutes_eq_Ico 570 945 (by norm_num), Finset.mem_Ico]
    omega
  have hcard : ((windowMinutes 690 810) ∩ nqUnionMinutes).card = 120 := by
    rw [Finset.inter_eq_left.mpr hsub, windowMinutes_card 690 810 (by norm_num) (by norm_num)]
    norm_num [stratDuration]
  have hov : timeOverlap 690 810 = 1 := by
    unfold timeOverlap
    rw [hcard]
    norm_num [stratDuration]
  have hgap : gapCoverage 690 810 = true := by decide
  have hreg : regimeOf "lunch_range_fade" = "mean_reversion" := by decide
  have hscore : complementaryScore "lunch_range_fade" 690 810 = 60 := by
    unfold complementaryScore
    rw [hov, hreg, hgap]
    norm_num [min_def]
  exact ⟨by decide, hreg, hsub, hov, hscore, by rw [hscore]; norm_num⟩

/-- Witness for C6 amended at the RTH window 09:30-15:45 (contained in the
reference union) for a trend archetype. -/
theorem union_contained_window_score_witness :
    (570 < 1440 ∧ 945 < 1440 ∧ stratDuration 570 945 ≠ 0 ∧
      windowMinutes 570 945 ⊆ nqUnionMinutes) ∧
    (timeOverlap 570 945 = 1 ∧ complementaryScore "ma_crossover" 570 945 ≤ 60) :=
  ⟨⟨by norm_num, by norm_num, by norm_num [stratDuration], Finset.subset_union_left⟩,
    union_contained_window_score "ma_crossover" 570 945 (by norm_num) (by norm_num)
      (by norm_num [stratDuration]) Finset.subset_union_left⟩

/-- C9: a periodic daemon save (no forced flags) preserves the externally
writable `paused` and `stopped` fields exactly as they were on disk, writes
each in-memory daemon field, and leaves every field outside the in-memory
state at its prior on-disk value. -/
theorem save_state_preserves_control_flags (existing mem : String → Option JVal) :
    saveState existing mem noForceFlags "paused" = existing "paused" ∧
    saveState existing mem noForceFlags "stopped" = existing "stopped" ∧
    (∀ k, mem k = none → saveState existing mem noForceFlags k = existing k) ∧
    (∀ k v, mem k = some v → k ≠ "paused" → k ≠ "stopped" →
      saveState existing mem noForceFlags k = some v) := by
  refine ⟨rfl, rfl, ?_, ?_⟩
  · intro k hk
    simp only [saveState, noForceFlags, hk]
    split <;> rfl
  · intro k v hk hp hs
    simp only [saveState, noForceFlags, hk]
    rw [if_neg (by tauto)]

/-- Witness for C9: a file holding externally set `paused=true`,
`stopped=true` and a dashboard `directive`, saved by a daemon whose memory
holds only `total_cycles`, keeps all three external fields intact. -/
theorem save_state_preserves_control_flags_witness :
    ((fun k => if k = "total_cycles" then some (JVal.num 7) else none) "directive" = none ∧
      (fun k => if k = "total_cycles" then some (JVal.num 7) else none) "total_cycles" =
        some (JVal.num 7)) ∧
    (saveState
        (fun k => if k = "paused" ∨ k = "stopped" then some (JVal.bool true)
          else if k = "directive" then some (JVal.str "explore") else none)
        (fun k => if k = "total_cycles" then some (JVal.num 7) else none)
        noForceFlags "paused" = some (JVal.bool true) ∧
      saveState
        (fun k => if k = "paused" ∨ k = "stopped" then some (JVal.bool true)
          else if k = "directive" then some (JVal.str "explore") else none)
        (fun k => if k = "total_cycles" then some (JVal.num 7) else none)
        noForceFlags "stopped" = some (JVal.bool true) ∧
      saveState
        (fun k => if k = "paused" ∨ k = "stopped" then some (JVal.bool true)
          else if k = "directive" then some (JVal.str "explore") else none)
        (fun k => if k = "total_cycles" then some (JVal.num 7) else none)
        noForceFlags "directive" = some (JVal.str "explore") ∧
      saveState
        (fun k => if k = "paused" ∨ k = "stopped" then some (JVal.bool true)
          else if k = "directive" then some (JVal.str "explore") else none)
        (fun k => if k = "total_cycles" then some (JVal.num 7) else none)
        noForceFlags "total_cycles" = some (JVal.num 7)) := by
  refine ⟨⟨by decide, by decide⟩, ?_, ?_, ?_, ?_⟩
  · exact ((save_state_preserves_control_flags
      (fun k => if k = "paused" ∨ k = "stopped" then some (JVal.bool true)
        else if k = "directive" then some (JVal.str "explore") else none)
      (fun k => if k = "total_cycles" then some (JVal.num 7) else none)).1).trans (by decide)
  · exact ((save_state_preserves_control_flags
      (fun k => if k = "paused" ∨ k = "stopped" then some (JVal.bool true)
        else if k = "directive" then some (JVal.str "explore") else none)
      (fun k => if k = "total_cycles" then some (JVal.num 7) else none)).2.1).trans (by decide)
  · exact ((save_state_preserves_control_flags
      (fun k => if k = "paused" ∨ k = "stopped" then some (JVal.bool true)
        else if k = "directive" then some (JVal.str "explore") else none)
      (fun k => if k = "total_cycles" then some (JVal.num 7) else none)).2.2.1 "directive"
        (by decide)).trans (by decide)
  · exact (save_state_preserves_control_flags
      (fun k => if k = "paused" ∨ k = "stopped" then some (JVal.bool true)
        else if k = "directive" then some (JVal.str "explore") else none)
      (fun k => if k = "total_cycles" then some (JVal.num 7) else none)).2.2.2 "total_cycles"
        (JVal.num 7) (by decide) (by decide) (by decide)

/-- C10: `MarcusDaemon.start` saves with
`force_flags={'paused': False, 'stopped': False}`, so whatever the state
file previously held — including an externally set pause or stop — both
flags are false on disk after startup. -/
theorem start_save_clears_control_flags (existing mem : String → Option JVal) :
    saveState existing mem startForceFlags "paused" = some (JVal.bool false) ∧
    saveState existing mem startForceFlags "stopped" = some (JVal.bool false) := by
  constructor <;> rfl

/-- A flat position stays flat through the overnight exit checks. -/
theorem onExits_flat (b : ONBar) (s : ONState) (h : s.inPos = 0) :
    (onExits b s).inPos = 0 := by
  simp [onExits, h]

/-- Starting flat, the overnight entry logic either leaves the position flat
or reports that an entry fired. -/
theorem onEntries_flat_or_entry (p : ONParams) (b : ONBar) (s : ONState) (h : s.inPos = 0) :
    (onEntries p b s).1.inPos = 0 ∨ (onEntries p b s).2 = true := by
  simp only [onEntries]
  split_ifs <;> simp_all

/-- Starting flat, the overnight trading window either stays flat or enters. -/
theorem onTrading_flat_or_entry (p : ONParams) (crosses : Bool) (b : ONBar) (s : ONState)
    (h : s.inPos = 0) :
    (onTrading p crosses b s).1.inPos = 0 ∨ (onTrading p crosses b s).2 = true := by
  unfold onTrading
  split
  · left; rfl
  · exact onEntries_flat_or_entry p b _ (onExits_flat b s h)

/-- The range update does not touch the position. -/
theorem onRangeUpdate_inPos (b : ONBar) (s : ONState) :
    (onRangeUpdate b s).inPos = s.inPos := by
  unfold onRangeUpdate
  split <;> rfl

/-- On a calendar-day change, the overnight step force-closes any carried
position first, so the bar can only end with a nonzero position through a
fresh entry on that same bar. -/
theorem onStep_day_change_flat_or_entry (p : ONParams) (prevDay : ℤ) (b : ONBar)
    (s : ONState) (hday : b.day ≠ prevDay) :
    (onStep p prevDay b s).1.inPos = 0 ∨ (onStep p prevDay b s).2 = true := by
  simp only [onStep, if_pos hday]
  set sa := (if p.startMin ≤ b.t then onReset { s with inPos := 0 } else { s with inPos := 0 })
    with hsa
  have ha : sa.inPos = 0 := by
    rw [hsa]; split <;> rfl
  set s2 := (if p.startMin ≤ b.t ∧ b.t < p.startMin + 5 ∧ sa.inSession = false
    then onReset sa else sa) with hs2
  have h2 : s2.inPos = 0 := by
    rw [hs2]; split <;> exact ha
  split
  · left; rfl
  · split
    · left
      exact (onRangeUpdate_inPos b s2).trans h2
    · set s3 := (if (!s2.rangeFormed && !(onInRangeWindow p (onCrosses p) b.t))
        then { s2 with rangeFormed := true } else s2) with hs3
      have h3 : s3.inPos = 0 := by
        rw [hs3]; split <;> exact h2
      split
      · exact onTrading_flat_or_entry p _ b _ h3
      · exact Or.inl h3

/-- C4 amended: the overnight kernel force-flattens positions at every
calendar-day boundary: on a bar whose day ordinal differs from the previous
bar's, the emitted signal is 0 unless a fresh entry fired on that very bar.
Session bookkeeping survives midnight, an open position does not. -/
theorem overnight_day_change_no_carry (p : ONParams) (bars : List ONBar) (i : ℕ)
    (hday : (bars.getD (i + 1) default).day ≠ (bars.getD i default).day) :
    onSignal p bars (i + 1) = 0 ∨ (onStateAt p bars (i + 1)).2 = true := by
  unfold onSignal onStateAt
  exact onStep_day_change_flat_or_entry p _ _ _ hday

/-- C4 counterexample: in the concrete scenario a short is open on the last
bar before midnight (signal −1 at 23:55 with SL 106, TP 101); on the first
bar after midnight (00:00, day change) no stop-loss fires
(high 105 < SL 106), no take-profit fires (low 103 > TP 101), and the bar
is nowhere near `session_end`, yet the kernel emits signal 0: the position
did not remain open across midnight. -/
theorem overnight_midnight_cex :
    onSignal onCexParams onCexBars 3 = -1 ∧
    (onCexBars.getD 4 default).day ≠ (onCexBars.getD 3 default).day ∧
    (onStateAt onCexParams onCexBars 3).1.slPrice = 106 ∧
    (onStateAt onCexParams onCexBars 3).1.tpPrice = 101 ∧
    ¬ ((onStateAt onCexParams onCexBars 3).1.slPrice ≤ (onCexBars.getD 4 default).high) ∧
    ¬ ((onCexBars.getD 4 default).low ≤ (onStateAt onCexParams onCexBars 3).1.tpPrice) ∧
    onNearExit onCexParams (onCrosses onCexParams) (onCexBars.getD 4 default).t = false ∧
    onSignal onCexParams onCexBars 4 = 0 := by
  have h1 : (onStateAt onCexParams onCexBars 1).1 =
      ⟨105, 95, false, 0, 0, 0, 0, true, false, false, false⟩ := by
    norm_num [onStateAt, onStep, onInit, onReset, onCrosses, onBarInSession,
      onInRangeWindow, onRangeUpdate, onCexParams, onCexBars]
  have h2 : (onStateAt onCexParams onCexBars 2).1 =
      ⟨105, 95, true, -1, 104, 106, 101, true, true, false, false⟩ := by
    rw [show (2 : ℕ) = 1 + 1 from rfl, onStateAt, h1]
    norm_num [onStep, onReset, onCrosses, onBarInSession, onInRangeWindow,
      onRangeUpdate, onTrading, onNearExit, onExits, onEntries, onEnterShort,
      onEnterLong, onCexParams, onCexBars]
  have h3 : (onStateAt onCexParams onCexBars 3).1 =
      ⟨105, 95, true, -1, 104, 106, 101, true, true, false, false⟩ := by
    rw [show (3 : ℕ) = 2 + 1 from rfl, onStateAt, h2]
    norm_num [onStep, onReset, onCrosses, onBarInSession, onInRangeWindow,
      onRangeUpdate, onTrading, onNearExit, onExits, onEntries, onEnterShort,
      onEnterLong, onCexParams, onCexBars]
  have h4 : (onStateAt onCexParams onCexBars 4).1 =
      ⟨105, 95, true, 0, 104, 106, 101, true, true, false, false⟩ := by
    rw [show (4 : ℕ) = 3 + 1 from rfl, onStateAt, h3]
    norm_num [onStep, onReset, onCrosses, onBarInSession, onInRangeWindow,
      onRangeUpdate, onTrading, onNearExit, onExits, onEntries, onEnterShort,
      onEnterLong, onCexParams, onCexBars]
  refine ⟨?_, by decide, ?_, ?_, ?_, ?_, by decide, ?_⟩
  · rw [onSignal, h3]
  · rw [h3]
  · rw [h3]
  · rw [h3]
    norm_num [onCexBars]
  · rw [h3]
    norm_num [onCexBars]
  · rw [onSignal, h4]

/-- Witness for C4 amended: the concrete scenario's midnight bar. -/
theorem overnight_day_change_no_carry_witness :
    ((onCexBars.getD 4 default).day ≠ (onCexBars.getD 3 default).day) ∧
    (onSignal onCexParams onCexBars 4 = 0 ∨ (onStateAt onCexParams onCexBars 4).2 = true) :=
  ⟨by decide, overnight_day_change_no_carry onCexParams onCexBars 3 (by decide)⟩

/-- The ORB exit checks never change the traded flag. -/
theorem orbExits_traded (p : OrbParams) (b : OrbBar) (s : OrbState) :
    (orbExits p b s).1.traded = s.traded := by
  simp only [orbExits]
  split_ifs <;> rfl

/-- A flat position passes unchanged through the ORB exit checks. -/
theorem orbExits_flat (p : OrbParams) (b : OrbBar) (s : OrbState) (h : s.inPos = 0) :
    orbExits p b s = (s, OrbExit.none) := by
  simp [orbExits, h]

/-- The range update touches neither position nor traded flag. -/
theorem orbRangeUpdate_state (b : OrbBar) (s : OrbState) :
    (orbRangeUpdate b s).inPos = s.inPos ∧ (orbRangeUpdate b s).traded = s.traded := by
  unfold orbRangeUpdate
  split <;> exact ⟨rfl, rfl⟩

/-- An entry reported by the ORB entry logic sets the traded flag. -/
theorem orbEntries_entered_traded (p : OrbParams) (b : OrbBar) (s : OrbState)
    (h : (orbEntries p b s).2 = true) : (orbEntries p b s).1.traded = true := by
  simp only [orbEntries] at h ⊢
  split_ifs at h ⊢ <;> simp_all [orbEnterLong, orbEnterShort]

/-- Once today's trade has happened, the ORB entry logic is inert. -/
theorem orbEntries_traded_blocked (p : OrbParams) (b : OrbBar) (s : OrbState)
    (h : s.traded = true) : orbEntries p b s = (s, false) := by
  simp [orbEntries, h]

/-- Starting flat, the ORB entry logic either stays flat or enters. -/
theorem orbEntries_flat_or_entry (p : OrbParams) (b : OrbBar) (s : OrbState)
    (h : s.inPos = 0) :
    (orbEntries p b s).1.inPos = 0 ∨ (orbEntries p b s).2 = true := by
  simp only [orbEntries]
  split_ifs <;> simp_all

/-- Starting flat, an ORB step ends nonflat only through an entry. -/
theorem orbStep_flat_or_entry (p : OrbParams) (prevDay : ℤ) (b : OrbBar) (s : OrbState)
    (h : s.inPos = 0) :
    (orbStep p prevDay b s).1.inPos = 0 ∨ (orbStep p prevDay b s).2.2 = true := by
  simp only [orbStep]
  set s1 := (if b.day ≠ prevDay then orbDayReset s else s) with hs1
  have h1 : s1.inPos = 0 := by
    rw [hs1]; split
    · rfl
    · exact h
  split
  · exact Or.inl ((orbRangeUpdate_state b s1).1.trans h1)
  · split
    · rw [orbExits_flat p b s1 h1]
      exact orbEntries_flat_or_entry p b s1 h1
    · split
      · exact Or.inl rfl
      · exact Or.inl h1

/-- An ORB step that reports an entry leaves the traded flag set. -/
theorem orbStep_entered_traded (p : OrbParams) (prevDay : ℤ) (b : OrbBar) (s : OrbState)
    (h : (orbStep p prevDay b s).2.2 = true) :
    (orbStep p prevDay b s).1.traded = true := by
  simp only [orbStep] at h ⊢
  set s1 := (if b.day ≠ prevDay then orbDayReset s else s) with hs1
  split_ifs at h ⊢
  exact orbEntries_entered_traded p b _ h

/-- Within a calendar day, the traded flag never resets. -/
theorem orbStep_traded_pres (p : OrbParams) (prevDay : ℤ) (b : OrbBar) (s : OrbState)
    (hday : b.day = prevDay) (h : s.traded = true) :
    (orbStep p prevDay b s).1.traded = true := by
  simp only [orbStep, if_neg (show ¬ b.day ≠ prevDay from not_not_intro hday)]
  split
  · exact (orbRangeUpdate_state b s).2.trans h
  · split
    · rw [orbEntries_traded_blocked p b _ ((orbExits_traded p b s).trans h)]
      exact (orbExits_traded p b s).trans h
    · split
      · exact h
      · exact h

/-- Within a calendar day, once flat with the trade already taken, the ORB
kernel stays flat. -/
theorem orbStep_traded_flat (p : OrbParams) (prevDay : ℤ) (b : OrbBar) (s : OrbState)
    (hday : b.day = prevDay) (htr : s.traded = true) (h : s.inPos = 0) :
    (orbStep p prevDay b s).1.inPos = 0 := by
  simp only [orbStep, if_neg (show ¬ b.day ≠ prevDay from not_not_intro hday)]
  split
  · exact (orbRangeUpdate_state b s).1.trans h
  · split
    · rw [orbExits_flat p b s h, orbEntries_traded_blocked p b s htr]
      exact h
    · split
      · rfl
      · exact h

/-- C7: the ORB kernel enters at most once per trading day.  Within a
maximal run of bars sharing one calendar-day ordinal, once a
flat-to-nonflat transition has happened (at bar `a+1`) and the position has
gone flat again (at bar `c`), the signal stays flat on the next bar of the
run: a second same-day flat-to-nonflat transition is impossible. -/
theorem orb_one_entry_per_day (p : OrbParams) (bars : List OrbBar) (a c : ℕ)
    (hac : a + 1 ≤ c)
    (hrun : ∀ k, a ≤ k → k ≤ c + 1 →
      (bars.getD k default).day = (bars.getD a default).day)
    (ha0 : orbSignal p bars a = 0) (ha1 : orbSignal p bars (a + 1) ≠ 0)
    (hc0 : orbSignal p bars c = 0) :
    orbSignal p bars (c + 1) = 0 := by
  have hstep1 : (orbStateAt p bars (a + 1)).2.2 = true := by
    rcases orbStep_flat_or_entry p (bars.getD a default).day (bars.getD (a + 1) default)
        (orbStateAt p bars a).1 ha0 with h | h
    · exact absurd h ha1
    · exact h
  have htr1 : (orbStateAt p bars (a + 1)).1.traded = true :=
    orbStep_entered_traded p _ _ _ hstep1
  have htr : ∀ k, a + 1 ≤ k → k ≤ c → (orbStateAt p bars k).1.traded = true := by
    intro k hk1 hk2
    induction k with
    | zero => omega
    | succ n ih =>
        rcases Nat.lt_or_ge (a + 1) (n + 1) with hlt | hge
        · have hn : (orbStateAt p bars n).1.traded = true := ih (by omega) (by omega)
          have hdeq : (bars.getD (n + 1) default).day = (bars.getD n default).day := by
            rw [hrun (n + 1) (by omega) (by omega), hrun n (by omega) (by omega)]
          exact orbStep_traded_pres p _ _ _ hdeq hn
        · have hna : n = a := by omega
          rw [hna]
          exact htr1
  have hdeq : (bars.getD (c + 1) default).day = (bars.getD c default).day := by
    rw [hrun (c + 1) (by omega) (by omega), hrun c (by omega) (by omega)]
  exact orbStep_traded_flat p _ _ _ hdeq (htr c hac le_rfl) hc0

/-- C5: in the ORB trading window with the fixed target active
(`use_trailing_stop = false`), on a bar that brackets both the stop and the
target, the stop branch is taken: the exit is recorded as a stop-loss, not
a take-profit (long and short mirrored). -/
theorem orb_stop_before_target (p : OrbParams) (prevDay : ℤ) (b : OrbBar) (s : OrbState)
    (hday : b.day = prevDay) (hw : p.endMin ≤ b.t ∧ b.t < p.exitMin)
    (hts : p.useTs = false) :
    (s.inPos = 1 → b.low ≤ s.slPrice → s.tpPrice ≤ b.high →
      (orbStep p prevDay b s).2.1 = OrbExit.stop) ∧
    (s.inPos = -1 → s.slPrice ≤ b.high → b.low ≤ s.tpPrice →
      (orbStep p prevDay b s).2.1 = OrbExit.stop) := by
  have hnr : ¬ (p.startMin ≤ b.t ∧ b.t < p.endMin) := fun hc => absurd hc.2 (not_lt.mpr hw.1)
  simp only [orbStep, if_neg (not_not_intro hday), if_neg hnr, if_pos hw]
  constructor
  · intro h1 hsl htp
    norm_num [orbExits, h1, hts, hsl]
  · intro h1 hsl htp
    norm_num [orbExits, h1, hts, hsl]

/-- Witness for C5 at the concrete bracketing bar. -/
theorem orb_stop_before_target_witness :
    (orbTieBar.day = (5 : ℤ) ∧ orbTieParams.endMin ≤ orbTieBar.t ∧
      orbTieBar.t < orbTieParams.exitMin ∧ orbTieParams.useTs = false ∧
      orbTieState.inPos = 1 ∧ orbTieBar.low ≤ orbTieState.slPrice ∧
      orbTieState.tpPrice ≤ orbTieBar.high) ∧
    (orbStep orbTieParams 5 orbTieBar orbTieState).2.1 = OrbExit.stop :=
  ⟨⟨by decide, by decide, by decide, by decide, by decide, by decide, by decide⟩,
    (orb_stop_before_target orbTieParams 5 orbTieBar orbTieState (by decide)
      ⟨by decide, by decide⟩ (by decide)).1 (by decide) (by decide) (by decide)⟩

/-- With the trailing stop on, no exit branch is ever the fixed target. -/
theorem orbExits_no_target (p : OrbParams) (b : OrbBar) (s : OrbState)
    (hts : p.useTs = true) : (orbExits p b s).2 ≠ OrbExit.target := by
  simp only [orbExits]
  split_ifs <;> simp_all

/-- With the trailing stop on, a held long's stop is ratcheted to
`max(previous stop, high - ts_mult*ATR)` by the exit checks. -/
theorem orbExits_ts_long_sl (p : OrbParams) (b : OrbBar) (s : OrbState)
    (hts : p.useTs = true) (h1 : s.inPos = 1) :
    (orbExits p b s).1.slPrice = max s.slPrice (b.high - b.atr * p.tsMult) := by
  simp only [orbExits, h1, hts]
  norm_num
  split_ifs <;> rfl

/-- With the trailing stop on, a held short's stop is ratcheted to
`min(previous stop, low + ts_mult*ATR)` by the exit checks. -/
theorem orbExits_ts_short_sl (p : OrbParams) (b : OrbBar) (s : OrbState)
    (hts : p.useTs = true) (h1 : s.inPos = -1) :
    (orbExits p b s).1.slPrice = min s.slPrice (b.low + b.atr * p.tsMult) := by
  simp only [orbExits, h1, hts]
  norm_num
  split_ifs <;> rfl

/-- C8: with the trailing stop enabled, the fixed take-profit never causes
an exit, and on a trading-window bar a held long's stop becomes
`max(previous stop, high(i) - ts_mult*ATR(i))`, hence is non-decreasing
(short mirrored with `min`, non-increasing).  The `traded` hypothesis is the
kernel invariant that an open position implies today's trade was taken. -/
theorem orb_trailing_stop_ratchet (p : OrbParams) (prevDay : ℤ) (b : OrbBar) (s : OrbState)
    (hts : p.useTs = true) :
    ((orbStep p prevDay b s).2.1 ≠ OrbExit.target) ∧
    (b.day = prevDay → p.endMin ≤ b.t → b.t < p.exitMin → s.inPos = 1 → s.traded = true →
      (orbStep p prevDay b s).1.slPrice = max s.slPrice (b.high - b.atr * p.tsMult) ∧
      s.slPrice ≤ (orbStep p prevDay b s).1.slPrice) ∧
    (b.day = prevDay → p.endMin ≤ b.t → b.t < p.exitMin → s.inPos = -1 → s.traded = true →
      (orbStep p prevDay b s).1.slPrice = min s.slPrice (b.low + b.atr * p.tsMult) ∧
      (orbStep p prevDay b s).1.slPrice ≤ s.slPrice) := by
  refine ⟨?_, ?_, ?_⟩
  · simp only [orbStep]
    split_ifs
    all_goals try exact orbExits_no_target p b _ hts
    all_goals simp
  · intro hday hw1 hw2 h1 htr
    have hnr : ¬ (p.startMin ≤ b.t ∧ b.t < p.endMin) := fun hc => absurd hc.2 (not_lt.mpr hw1)
    simp only [orbStep, if_neg (not_not_intro hday), if_neg hnr, if_pos (And.intro hw1 hw2)]
    have hex : (orbExits p b s).1.traded = true := (orbExits_traded p b s).trans htr
    rw [orbEntries_traded_blocked p b _ hex]
    have hmax := orbExits_ts_long_sl p b s hts h1
    exact ⟨hmax, hmax ▸ le_max_left _ _⟩
  · intro hday hw1 hw2 h1 htr
    have hnr : ¬ (p.startMin ≤ b.t ∧ b.t < p.endMin) := fun hc => absurd hc.2 (not_lt.mpr hw1)
    simp only [orbStep, if_neg (not_not_intro hday), if_neg hnr, if_pos (And.intro hw1 hw2)]
    have hex : (orbExits p b s).1.traded = true := (orbExits_traded p b s).trans htr
    rw [orbEntries_traded_blocked p b _ hex]
    have hmin := orbExits_ts_short_sl p b s hts h1
    exact ⟨hmin, hmin ▸ min_le_left _ _⟩

/-- Witness for C8 at a concrete trading-window bar: the stop 95 is lifted
to `max 95 (100 - 2*1) = 98`. -/
theorem orb_trailing_stop_ratchet_witness :
    (orbTsParams.useTs = true ∧ orbTsBar.day = (5 : ℤ) ∧
      orbTsParams.endMin ≤ orbTsBar.t ∧ orbTsBar.t < orbTsParams.exitMin ∧
      orbTsState.inPos = 1 ∧ orbTsState.traded = true) ∧
    ((orbStep orbTsParams 5 orbTsBar orbTsState).2.1 ≠ OrbExit.target) ∧
    ((orbStep orbTsParams 5 orbTsBar orbTsState).1.slPrice =
        max orbTsState.slPrice (orbTsBar.high - orbTsBar.atr * orbTsParams.tsMult) ∧
      orbTsState.slPrice ≤ (orbStep orbTsParams 5 orbTsBar orbTsState).1.slPrice) := by
  have ht := orb_trailing_stop_ratchet orbTsParams 5 orbTsBar orbTsState (by decide)
  exact ⟨⟨by decide, by decide, by decide, by decide, by decide, by decide⟩,
    ht.1, ht.2.1 (by decide) (by decide) (by decide) (by decide) (by decide)⟩

/-- Witness for C7 on a concrete day: entry at bar 2, stop-out at bar 3,
and the kernel stays flat on bar 4. -/
theorem orb_one_entry_per_day_witness :
    (1 + 1 ≤ 3 ∧
      (∀ k, 1 ≤ k → k ≤ 3 + 1 →
        (orbWBars.getD k default).day = (orbWBars.getD 1 default).day) ∧
      orbSignal orbWParams orbWBars 1 = 0 ∧
      orbSignal orbWParams orbWBars (1 + 1) ≠ 0 ∧
      orbSignal orbWParams orbWBars 3 = 0) ∧
    orbSignal orbWParams orbWBars (3 + 1) = 0 := by
  have h1 : (orbStateAt orbWParams orbWBars 1).1 = ⟨105, 95, false, 0, 0, 0, 0⟩ := by
    norm_num [orbStateAt, orbStep, orbInit, orbDayReset, orbRangeUpdate, orbExits,
      orbEntries, orbEnterLong, orbEnterShort, orbLongFiltersOk, orbShortFiltersOk,
      orbWParams, orbWBars]
  have h2 : (orbStateAt orbWParams orbWBars 2).1 = ⟨105, 95, true, 1, 106, 96, 126⟩ := by
    rw [show (2 : ℕ) = 1 + 1 from rfl, orbStateAt, h1]
    norm_num [orbStep, orbDayReset, orbRangeUpdate, orbExits, orbEntries,
      orbEnterLong, orbEnterShort, orbLongFiltersOk, orbShortFiltersOk,
      orbWParams, orbWBars]
  have h3 : (orbStateAt orbWParams orbWBars 3).1 = ⟨105, 95, true, 0, 106, 96, 126⟩ := by
    rw [show (3 : ℕ) = 2 + 1 from rfl, orbStateAt, h2]
    norm_num [orbStep, orbDayReset, orbRangeUpdate, orbExits, orbEntries,
      orbEnterLong, orbEnterShort, orbLongFiltersOk, orbShortFiltersOk,
      orbWParams, orbWBars]
  have hrun : ∀ k, 1 ≤ k → k ≤ 3 + 1 →
      (orbWBars.getD k default).day = (orbWBars.getD 1 default).day := by
    intro k hk1 hk2
    interval_cases k <;> rfl
  have hs1 : orbSignal orbWParams orbWBars 1 = 0 := by
    rw [orbSignal, h1]
  have hs2 : orbSignal orbWParams orbWBars (1 + 1) ≠ 0 := by
    rw [orbSignal, show (1 + 1 : ℕ) = 2 from rfl, h2]
    norm_num
  have hs3 : orbSignal orbWParams orbWBars 3 = 0 := by
    rw [orbSignal, h3]
  exact ⟨⟨by norm_num, hrun, hs1, hs2, hs3⟩,
    orb_one_entry_per_day orbWParams orbWBars 1 3 (by norm_num) hrun hs1 hs2 hs3⟩

end Marcus
